import Mathlib

/-!
Shallow embedding of `src/lib/calendar.ts` (class `GoogleCalendarService`)
of the AgenticAi backend, together with theorems checking the
natural-language specification against it.

The TypeScript code is asynchronous I/O over the Google Calendar provider
and a relational credential store.  We embed it as pure functions over an
explicit provider oracle (`Provider`), an explicit accounts table
(`List Account`), and an explicit clock, with JavaScript truthiness and
`??` / `||` coalescing modeled faithfully.  Thrown `Error` objects and
provider failures are both modeled by `JsError`; operations return
`Except JsError _`.  The event-pagination `do/while` loop is modeled with
a fuel parameter (the loop has no intrinsic bound in the source).
-/

deriving instance DecidableEq for Except

namespace AgenticCal

/-- JavaScript truthiness of a possibly-absent string (`undefined`/`null`
and the empty string are falsy). -/
def strTruthy : Option String → Bool
  | none => false
  | some s => s != ""

/-- JavaScript `o || d` for a possibly-absent string `o` with default `d`. -/
def jsOrS (o : Option String) (d : String) : String :=
  match o with
  | none => d
  | some s => if s = "" then d else s

/-- Does the character list `s` start with `pat`? -/
def listStartsWith : List Char → List Char → Bool
  | _, [] => true
  | [], _ :: _ => false
  | c :: cs, p :: ps => c == p && listStartsWith cs ps

/-- Does the character list `s` contain `pat` as a contiguous run? -/
def listContainsSub : List Char → List Char → Bool
  | [], pat => listStartsWith [] pat
  | c :: cs, pat => listStartsWith (c :: cs) pat || listContainsSub cs pat

/-- JavaScript `String.prototype.includes`: does `s` contain `pat` as a
substring? -/
def containsSubstr (s pat : String) : Bool :=
  listContainsSub s.toList pat.toList

/-- A row of the `accounts` table (the persisted OAuth credential record):
access token, refresh token and granted scope string are nullable columns. -/
structure Account where
  userId : String
  accessToken : Option String := none
  refreshToken : Option String := none
  scope : Option String := none
deriving DecidableEq

/-- A thrown JavaScript `Error` / Google API error object.  `code` and
`status` are the fields the classifier inspects; `responseMessage` models
`error.response?.data?.error?.message`. -/
structure JsError where
  message : String
  code : Option Nat := none
  status : Option Nat := none
  responseMessage : Option String := none
deriving DecidableEq

/-- The authenticated OAuth2 client handle returned by
`getCalendarClient` (credentials set via `setCredentials`). -/
structure ClientHandle where
  accessToken : String
  refreshToken : Option String := none
deriving DecidableEq

/-- The drizzle query
`db.select().from(accounts).where(eq(accounts.userId, userId)).limit(1)`. -/
def accountsFor (dbAccounts : List Account) (userId : String) : List Account :=
  (dbAccounts.filter (fun a => a.userId == userId)).take 1

/-- Embedding of `GoogleCalendarService.getCalendarClient` (calendar.ts lines 7-82):
loads the credential record, checks token and scope presence, and builds
the authenticated client. -/
def getCalendarClient (dbAccounts : List Account) (userId : String) :
    Except JsError ClientHandle :=
  match accountsFor dbAccounts userId with
  | [] => .error { message := "No Google account linked" }
  | account :: _ =>
    if !(strTruthy account.accessToken) then
      .error { message := "No access token found. Please sign in again." }
    else if strTruthy account.scope then
      let hasCalendarReadScope := containsSubstr (account.scope.getD "") "calendar.readonly"
      let hasCalendarEventsScope := containsSubstr (account.scope.getD "") "calendar.events"
      if !hasCalendarReadScope && !hasCalendarEventsScope then
        .error { message := "Calendar permissions not granted. Please sign out and sign in again to grant calendar access." }
      else
        .ok { accessToken := account.accessToken.getD "", refreshToken := account.refreshToken }
    else
      .ok { accessToken := account.accessToken.getD "", refreshToken := account.refreshToken }

/-- The `tokens` payload delivered to the `oauth2Client.on` rotation
callback. -/
structure Tokens where
  access_token : Option String := none
  refresh_token : Option String := none
deriving DecidableEq

/-- One `db.update(accounts).set({...}).where(eq(accounts.userId, userId))`
write: only the fields present in the `set` object are non-`none`. -/
structure AccountUpdate where
  userId : String
  accessToken : Option String := none
  refreshToken : Option String := none
  updatedAt : Option Nat := none
deriving DecidableEq

/-- The token-rotation observer installed by `getCalendarClient`
(calendar.ts lines 57-79): the list of credential-store writes it issues
for one rotation event, in order.  `now` models `new Date()`. -/
def onTokensWrites (userId : String) (now : Nat) (tokens : Tokens) :
    List AccountUpdate :=
  (if strTruthy tokens.access_token then
    [{ userId := userId, accessToken := tokens.access_token, updatedAt := some now }]
  else []) ++
  (if strTruthy tokens.refresh_token then
    [{ userId := userId, refreshToken := tokens.refresh_token, updatedAt := some now }]
  else [])

/-- A calendar descriptor from the provider `calendarList.list` endpoint
(the source only reads `cal.id`; the rest is logged). -/
structure Cal where
  id : String
  summary : String := ""
deriving DecidableEq

/-- The `response.data` of `calendarList.list`; `items` may be absent
(`response.data.items || []`). -/
structure CalListResponse where
  items : Option (List Cal) := none
deriving DecidableEq

/-- A provider event.  The provider payload is untyped in the source
(`any`); the aggregator reads nothing and writes only `calendarId`
(`item.calendarId = calId`), so we keep an identifying payload plus that
annotation field. -/
structure Event where
  id : String := ""
  summary : String := ""
  calendarId : Option String := none
deriving DecidableEq

/-- The `response.data` of one `events.list` page: `items` may be absent
(`response.data.items ?? []`), `nextPageToken` is the continuation
token. -/
structure EventsPage where
  items : Option (List Event) := none
  nextPageToken : Option String := none
deriving DecidableEq

/-- The query object passed to `calendar.events.list` (the source builds
`queryParams` with `maxResults: 250`, `singleEvents: true`,
`orderBy: startTime` and spreads in the `pageToken`). -/
structure EventsQuery where
  calendarId : String
  timeMin : String
  timeMax : Option String := none
  maxResults : Nat := 250
  singleEvents : Bool := true
  orderBy : String := "startTime"
  pageToken : Option String := none
deriving DecidableEq

/-- The event draft required by `createEvent`. -/
structure EventDateTime where
  dateTime : String
  timeZone : Option String := none
deriving DecidableEq

structure Attendee where
  email : String
deriving DecidableEq

structure EventDraft where
  summary : String
  description : Option String := none
  start : EventDateTime
  «end» : EventDateTime
  attendees : Option (List Attendee) := none
deriving DecidableEq

/-- The all-optional partial draft accepted by `updateEvent`. -/
structure EventPatch where
  summary : Option String := none
  description : Option String := none
  start : Option EventDateTime := none
  «end» : Option EventDateTime := none
  attendees : Option (List Attendee) := none
deriving DecidableEq

/-- The remote Google Calendar provider, as an oracle over the endpoints
the source invokes. -/
structure Provider where
  calendarListList : Except JsError CalListResponse
  eventsList : EventsQuery → Except JsError EventsPage
  eventsInsert : String → EventDraft → Except JsError Event
  eventsUpdate : String → String → EventPatch → Except JsError Event
  eventsDelete : String → String → Except JsError Unit

/-- One remote call issued by the enumerator/aggregator, recorded for the
call trace. -/
inductive RemoteCall where
  | calendarList
  | eventsList (q : EventsQuery)
deriving DecidableEq

/-- The `calendarId` argument of `getEvents`
(`calendarId?: string | string[]`). -/
inductive CalendarIdArg where
  | undef
  | single (s : String)
  | many (l : List String)
deriving DecidableEq

/-- JavaScript truthiness of the `calendarId` argument (`if (calendarId)`):
`undefined` and the empty string are falsy, every array is truthy. -/
def CalendarIdArg.isTruthy : CalendarIdArg → Bool
  | .undef => false
  | .single s => s != ""
  | .many _ => true

/-- Model of `Array.isArray(calendarId) ? calendarId : [calendarId]`. -/
def CalendarIdArg.toList : CalendarIdArg → List String
  | .undef => []
  | .single s => [s]
  | .many l => l

/-- The `AuthExpired` message thrown for status 401. -/
def authExpiredMsg : String :=
  "Google Calendar authentication expired. Please sign out and sign in again."

/-- The `ApiNotEnabled` message thrown for status 403 with an
API-not-activated provider message. -/
def apiNotEnabledMsg : String :=
  "Google Calendar API is not enabled in your Google Cloud Console. Please enable it at https://console.cloud.google.com/apis/library/calendar-json.googleapis.com"

/-- The `InsufficientPermission` message thrown for status 403 with a
scope-shortfall provider message. -/
def insufficientPermissionMsg : String :=
  "Insufficient permissions for Google Calendar. Please sign out and sign in again to grant calendar access."

/-- The `RateLimited` message thrown for status 429. -/
def rateLimitedMsg : String :=
  "Google Calendar API rate limit exceeded. Please try again later."

/-- The lead of every `AccessDenied` message (generic 403). -/
def accessDeniedLead : String := "Google Calendar access denied. "

/-- The default tail of the `AccessDenied` message when the provider
message is empty. -/
def accessDeniedDefaultTail : String :=
  "Please ensure Calendar API is enabled in Google Cloud Console and you have granted calendar permissions."

/-- The lead of every `UpstreamFailure` message (generic fallback). -/
def upstreamLead : String := "Failed to fetch calendar events: "

/-- The lead of the wrapper message `listCalendars` puts around any of
its failures. -/
def listWrapLead : String := "Failed to fetch calendar list: "

/-- Model of `error.response?.data?.error?.message || error.message`, the
`errorMessage` local the 403 sub-classification inspects. -/
def providerMessage (e : JsError) : String :=
  jsOrS e.responseMessage e.message

/-- The classifier in the catch block of `getEvents` (calendar.ts lines
190-217): maps a caught error to the surfaced message. -/
def classifyGetEventsError (e : JsError) : String :=
  if e.code = some 401 ∨ e.status = some 401 then
    authExpiredMsg
  else if e.code = some 403 ∨ e.status = some 403 then
    if containsSubstr (providerMessage e) "Calendar API has not been used" ∨
        containsSubstr (providerMessage e) "has not been enabled" then
      apiNotEnabledMsg
    else if containsSubstr (providerMessage e) "insufficient" ∨
        containsSubstr (providerMessage e) "scope" then
      insufficientPermissionMsg
    else
      accessDeniedLead ++
        (if providerMessage e = "" then accessDeniedDefaultTail
        else providerMessage e)
  else if e.code = some 429 ∨ e.status = some 429 then
    rateLimitedMsg
  else
    upstreamLead ++ e.message

/-- The six message shapes the classifier can produce, one per error
kind of the spec taxonomy (`AuthExpired`, `ApiNotEnabled`,
`InsufficientPermission`, `RateLimited`, `AccessDenied`,
`UpstreamFailure`). -/
def IsClassifiedMsg (m : String) : Prop :=
  m = authExpiredMsg ∨ m = apiNotEnabledMsg ∨ m = insufficientPermissionMsg ∨
  m = rateLimitedMsg ∨ accessDeniedLead.toList <+: m.toList ∨
  upstreamLead.toList <+: m.toList

/-- Embedding of `GoogleCalendarService.listCalendars` (calendar.ts lines 84-108),
with the trace of remote calls it issued.  Any failure inside the `try`
(credential resolution included) is re-thrown as
`Failed to fetch calendar list: <message>`. -/
def listCalendars (prov : Provider) (dbAccounts : List Account)
    (userId : String) : List RemoteCall × Except JsError (List Cal) :=
  let attempt : List RemoteCall × Except JsError (List Cal) :=
    match getCalendarClient dbAccounts userId with
    | .error e => ([], .error e)
    | .ok _ =>
      match prov.calendarListList with
      | .error e => ([RemoteCall.calendarList], .error e)
      | .ok resp => ([RemoteCall.calendarList], .ok (resp.items.getD []))
  match attempt with
  | (tr, .error e) => (tr, .error { message := listWrapLead ++ e.message })
  | ok => ok

/-- The fixed `queryParams` object built for one calendar in `getEvents`
(before the `pageToken` spread): `timeMin || new Date().toISOString()`,
`maxResults: 250`, `singleEvents: true`, `orderBy: startTime`. -/
def mkEventsQuery (calId now : String) (timeMin timeMax : Option String) :
    EventsQuery :=
  { calendarId := calId
    timeMin := jsOrS timeMin now
    timeMax := timeMax
    maxResults := 250
    singleEvents := true
    orderBy := "startTime"
    pageToken := none }

/-- The `do { ... } while (pageToken)` pagination loop of `getEvents` for
one calendar (calendar.ts lines 149-176), starting from continuation
token `tok`, with the trace of issued `events.list` queries.  Every
returned item is tagged with the calendar identifier
(`item.calendarId = calId`); the loop continues while
`response.data.nextPageToken ?? undefined` is truthy.  `fuel` bounds the
recursion (the source loop is unbounded). -/
def fetchCalPages (ev : EventsQuery → Except JsError EventsPage)
    (base : EventsQuery) :
    Nat → Option String → List RemoteCall × Except JsError (List Event)
  | 0, _ => ([], .error { message := "pagination did not terminate" })
  | fuel + 1, tok =>
    match ev { base with pageToken := tok } with
    | .error e => ([RemoteCall.eventsList { base with pageToken := tok }], .error e)
    | .ok page =>
      let items := (page.items.getD []).map
        (fun it => { it with calendarId := some base.calendarId })
      match page.nextPageToken with
      | none => ([RemoteCall.eventsList { base with pageToken := tok }], .ok items)
      | some t =>
        if t = "" then
          ([RemoteCall.eventsList { base with pageToken := tok }], .ok items)
        else
          let r := fetchCalPages ev base fuel (some t)
          (RemoteCall.eventsList { base with pageToken := tok } :: r.1,
            match r.2 with
            | .error e => .error e
            | .ok more => .ok (items ++ more))

/-- The `for (const calId of calendarIds)` loop of `getEvents`
(calendar.ts lines 133-177): fetch every page of every selected calendar
in order, pushing items onto one accumulator; the first failure aborts
the whole loop. -/
def fetchAllCals (ev : EventsQuery → Except JsError EventsPage)
    (now : String) (timeMin timeMax : Option String) (fuel : Nat) :
    List String → List RemoteCall × Except JsError (List Event)
  | [] => ([], .ok [])
  | calId :: rest =>
    let r := fetchCalPages ev (mkEventsQuery calId now timeMin timeMax) fuel none
    match r.2 with
    | .error e => (r.1, .error e)
    | .ok items =>
      let r2 := fetchAllCals ev now timeMin timeMax fuel rest
      match r2.2 with
      | .error e => (r.1 ++ r2.1, .error e)
      | .ok more => (r.1 ++ r2.1, .ok (items ++ more))

/-- Calendar selection in `getEvents` (calendar.ts lines 119-128): a
truthy `calendarId` argument is used as given; otherwise the calendar
list is enumerated via `this.listCalendars` and its ids are used. -/
def resolveCalendarIds (prov : Provider) (dbAccounts : List Account)
    (userId : String) (calendarId : CalendarIdArg) :
    List RemoteCall × Except JsError (List String) :=
  if calendarId.isTruthy then
    ([], .ok calendarId.toList)
  else
    match listCalendars prov dbAccounts userId with
    | (tr, .error e) => (tr, .error e)
    | (tr, .ok cals) => (tr, .ok (cals.map Cal.id))

/-- The body of the `try` block of `getEvents` (calendar.ts lines 116-180). -/
def getEventsTry (prov : Provider) (dbAccounts : List Account)
    (userId now : String) (timeMin timeMax : Option String)
    (calendarId : CalendarIdArg) (fuel : Nat) :
    List RemoteCall × Except JsError (List Event) :=
  match getCalendarClient dbAccounts userId with
  | .error e => ([], .error e)
  | .ok _ =>
    match resolveCalendarIds prov dbAccounts userId calendarId with
    | (tr, .error e) => (tr, .error e)
    | (tr, .ok calendarIds) =>
      let r := fetchAllCals prov.eventsList now timeMin timeMax fuel calendarIds
      (tr ++ r.1, r.2)

/-- Embedding of `GoogleCalendarService.getEvents` (calendar.ts lines 110-219): the
`try` body with every caught error re-thrown through the classifier. -/
def getEvents (prov : Provider) (dbAccounts : List Account)
    (userId now : String) (timeMin timeMax : Option String)
    (calendarId : CalendarIdArg) (fuel : Nat) :
    List RemoteCall × Except JsError (List Event) :=
  match getEventsTry prov dbAccounts userId now timeMin timeMax calendarId fuel with
  | (tr, .error e) => (tr, .error { message := classifyGetEventsError e })
  | ok => ok

/-- Embedding of `GoogleCalendarService.createEvent` (calendar.ts lines 221-236): no
`try/catch`; failures propagate raw. -/
def createEvent (prov : Provider) (dbAccounts : List Account)
    (userId : String) (event : EventDraft) : Except JsError Event :=
  match getCalendarClient dbAccounts userId with
  | .error e => .error e
  | .ok _ =>
    match prov.eventsInsert "primary" event with
    | .error e => .error e
    | .ok resp => .ok resp

/-- Embedding of `GoogleCalendarService.updateEvent` (calendar.ts lines 238-254): the
partial draft is forwarded verbatim to the provider endpoint `events.update`
endpoint; no `try/catch`. -/
def updateEvent (prov : Provider) (dbAccounts : List Account)
    (userId eventId : String) (event : EventPatch) : Except JsError Event :=
  match getCalendarClient dbAccounts userId with
  | .error e => .error e
  | .ok _ =>
    match prov.eventsUpdate "primary" eventId event with
    | .error e => .error e
    | .ok resp => .ok resp

/-- The `{ success: true }` marker returned by `deleteEvent`. -/
structure DeleteResult where
  success : Bool
deriving DecidableEq

/-- Embedding of `GoogleCalendarService.deleteEvent` (calendar.ts lines 256-265): no
`try/catch`. -/
def deleteEvent (prov : Provider) (dbAccounts : List Account)
    (userId eventId : String) : Except JsError DeleteResult :=
  match getCalendarClient dbAccounts userId with
  | .error e => .error e
  | .ok _ =>
    match prov.eventsDelete "primary" eventId with
    | .error e => .error e
    | .ok _ => .ok { success := true }

/-- Predicate `ServesChain ev base tok pages`: starting from continuation token
`tok`, the provider oracle `ev` serves exactly the page chain `pages` for
the query `base`: each page is returned for the continuation token of the previous page, every non-final page carries a (truthy) continuation
token, and the final page carries none. -/
inductive ServesChain (ev : EventsQuery → Except JsError EventsPage)
    (base : EventsQuery) : Option String → List EventsPage → Prop
  | last (tok : Option String) (p : EventsPage) :
      ev { base with pageToken := tok } = .ok p → p.nextPageToken = none →
      ServesChain ev base tok [p]
  | cons (tok : Option String) (p : EventsPage) (t : String)
      (ps : List EventsPage) :
      ev { base with pageToken := tok } = .ok p → p.nextPageToken = some t →
      t ≠ "" → ServesChain ev base (some t) ps →
      ServesChain ev base tok (p :: ps)

/-- The continuation tokens under which a page chain is requested: the
starting token, then the continuation token each page carries for its successor. -/
def chainToks : Option String → List EventsPage → List (Option String)
  | _, [] => []
  | tok, p :: ps => tok :: chainToks p.nextPageToken ps

/-! Concrete fixtures used by witnesses and counterexamples. -/

/-- A credential record with token and both calendar capability tokens. -/
def demoAccount : Account :=
  { userId := "u", accessToken := some "tok", refreshToken := some "r",
    scope := some "openid calendar.readonly calendar.events" }

/-- An accounts table holding exactly `demoAccount`. -/
def demoDb : List Account := [demoAccount]

def evA1 : Event := { id := "A1" }
def evA2 : Event := { id := "A2" }
def evA3 : Event := { id := "A3" }
def evB1 : Event := { id := "B1" }
def evB2 : Event := { id := "B2" }

/-- First page of calendar `A`: two items and a continuation token. -/
def demoPageA1 : EventsPage := { items := some [evA1, evA2], nextPageToken := some "t1" }

/-- Final page of calendar `A`: one item, no continuation token. -/
def demoPageA2 : EventsPage := { items := some [evA3], nextPageToken := none }

/-- Only page of calendar `B`. -/
def demoPageB1 : EventsPage := { items := some [evB1, evB2], nextPageToken := none }

/-- A healthy `events.list` oracle: calendar `A` has two pages, calendar
`B` one page, anything else is a 404. -/
def demoEventsList : EventsQuery → Except JsError EventsPage := fun q =>
  match q.calendarId, q.pageToken with
  | "A", none => .ok demoPageA1
  | "A", some "t1" => .ok demoPageA2
  | "B", none => .ok demoPageB1
  | _, _ => .error { message := "calendar not found", status := some 404 }

/-- A provider on which every operation succeeds. -/
def demoProvider : Provider :=
  { calendarListList := .ok { items := some [{ id := "A" }, { id := "B" }] }
    eventsList := demoEventsList
    eventsInsert := fun _ _ => .ok { id := "new" }
    eventsUpdate := fun _ _ _ => .ok { id := "upd" }
    eventsDelete := fun _ _ => .ok () }

/-- A raw provider failure carrying HTTP status 401. -/
def rawQuotaErr : JsError := { message := "quota exceeded", status := some 401 }

/-- An `events.list` oracle where calendar `A` succeeds with one page and
calendar `B` fails with a 403 scope-shortfall error. -/
def errEventsList : EventsQuery → Except JsError EventsPage := fun q =>
  match q.calendarId, q.pageToken with
  | "A", none => .ok { items := some [evA1], nextPageToken := none }
  | "B", _ => .error { message := "insufficient authentication scopes", status := some 403 }
  | _, _ => .error { message := "calendar not found", status := some 404 }

/-- A provider on which every remote call fails, except calendar `A` of
`errEventsList`. -/
def errProvider : Provider :=
  { calendarListList := .error rawQuotaErr
    eventsList := errEventsList
    eventsInsert := fun _ _ => .error rawQuotaErr
    eventsUpdate := fun _ _ _ => .error rawQuotaErr
    eventsDelete := fun _ _ => .error rawQuotaErr }

/-- A well-formed event draft. -/
def demoDraft : EventDraft :=
  { summary := "s", start := { dateTime := "d1" }, «end» := { dateTime := "d2" } }

/-- The per-calendar result lists of `demoProvider`, already tagged. -/
def demoPerCal : String → List Event := fun c =>
  if c = "A" then
    [{ id := "A1", calendarId := some "A" }, { id := "A2", calendarId := some "A" },
     { id := "A3", calendarId := some "A" }]
  else
    [{ id := "B1", calendarId := some "B" }, { id := "B2", calendarId := some "B" }]

/-- The aggregate result of `demoProvider` over calendars `A` then `B`. -/
def demoItems : List Event :=
  [{ id := "A1", calendarId := some "A" }, { id := "A2", calendarId := some "A" },
   { id := "A3", calendarId := some "A" }, { id := "B1", calendarId := some "B" },
   { id := "B2", calendarId := some "B" }]

/-! # Theorems -/

/-- Claim C7: credential resolution fails with `NoLinkedAccount`
(`"No Google account linked"`) for every user with no stored credential
record; fails with `MissingAccessToken`
(`"No access token found. Please sign in again."`) for every record
lacking an access token; fails with `InsufficientScope`
(`"Calendar permissions not granted. ..."`) for every record whose scope
string is present (non-empty) but contains neither capability token; and
succeeds with an authenticated client handle when an access token is
present and the scope string contains at least one capability. -/
theorem getCalendarClient_credential_resolution :
    (∀ dbAccounts userId, (∀ a ∈ dbAccounts, a.userId ≠ userId) →
      getCalendarClient dbAccounts userId =
        .error { message := "No Google account linked" })
    ∧ (∀ dbAccounts userId a rest, accountsFor dbAccounts userId = a :: rest →
        strTruthy a.accessToken = false →
        getCalendarClient dbAccounts userId =
          .error { message := "No access token found. Please sign in again." })
    ∧ (∀ dbAccounts userId a rest s, accountsFor dbAccounts userId = a :: rest →
        strTruthy a.accessToken = true → a.scope = some s → s ≠ "" →
        containsSubstr s "calendar.readonly" = false →
        containsSubstr s "calendar.events" = false →
        getCalendarClient dbAccounts userId =
          .error { message := "Calendar permissions not granted. Please sign out and sign in again to grant calendar access." })
    ∧ (∀ dbAccounts userId a rest t s, accountsFor dbAccounts userId = a :: rest →
        a.accessToken = some t → t ≠ "" → a.scope = some s →
        (containsSubstr s "calendar.readonly" = true ∨
          containsSubstr s "calendar.events" = true) →
        getCalendarClient dbAccounts userId =
          .ok { accessToken := t, refreshToken := a.refreshToken }) := by
  refine ⟨?_, ?_, ?_, ?_⟩
  · intro dbAccounts userId h
    have h0 : accountsFor dbAccounts userId = [] := by
      simp only [accountsFor, List.take_eq_nil_iff]
      right
      rw [List.filter_eq_nil_iff]
      intro a ha
      simpa using h a ha
    simp [getCalendarClient, h0]
  · intro dbAccounts userId a rest hacc htok
    simp [getCalendarClient, hacc, htok]
  · intro dbAccounts userId a rest s hacc htok hscope hs hr hc
    have hst : strTruthy (some s) = true := by simp [strTruthy, hs]
    have hsg : (some s).getD "" = s := by simp
    simp [getCalendarClient, hacc, htok, hscope, hst, hsg, hr, hc]
  · intro dbAccounts userId a rest t s hacc htok ht hscope hcap
    have htt : strTruthy a.accessToken = true := by
      simp [strTruthy, htok, ht]
    have hs : s ≠ "" := by
      rintro rfl
      rcases hcap with h | h <;> revert h <;> decide
    have hst : strTruthy (some s) = true := by simp [strTruthy, hs]
    have hgd : a.accessToken.getD "" = t := by simp [htok]
    rcases hcap with h | h <;>
      simp [getCalendarClient, hacc, htt, hscope, hst, h, hgd]

/-- Witness for C7 at concrete credential records, one per case. -/
theorem getCalendarClient_credential_resolution_witness :
    getCalendarClient [] "u" = .error { message := "No Google account linked" }
    ∧ getCalendarClient [{ userId := "u" }] "u" =
        .error { message := "No access token found. Please sign in again." }
    ∧ getCalendarClient [{ userId := "u", accessToken := some "tok", scope := some "email" }] "u" =
        .error { message := "Calendar permissions not granted. Please sign out and sign in again to grant calendar access." }
    ∧ getCalendarClient [demoAccount] "u" =
        .ok { accessToken := "tok", refreshToken := some "r" } :=
  ⟨getCalendarClient_credential_resolution.1 [] "u" (by simp),
   getCalendarClient_credential_resolution.2.1 [{ userId := "u" }] "u"
     { userId := "u" } [] (by decide) (by decide),
   getCalendarClient_credential_resolution.2.2.1
     [{ userId := "u", accessToken := some "tok", scope := some "email" }] "u"
     { userId := "u", accessToken := some "tok", scope := some "email" } [] "email"
     (by decide) (by decide) rfl (by decide) (by decide) (by decide),
   getCalendarClient_credential_resolution.2.2.2 [demoAccount] "u" demoAccount []
     "tok" "openid calendar.readonly calendar.events"
     (by decide) rfl (by decide) rfl (by decide)⟩

/-- Claim C8: for every token-rotation event, the rotation observer
issues exactly one access-token write (only when a new access token is
reported), exactly one refresh-token write (only when a new refresh token
is reported), each write sets only that one token field plus the
`updatedAt` timestamp stamped with the current time, and no write is
issued for a field that did not rotate. -/
theorem onTokensWrites_one_write_per_rotated_field
    (userId : String) (now : Nat) (tokens : Tokens) :
    ((onTokensWrites userId now tokens).filter (fun u => u.accessToken.isSome) =
      if strTruthy tokens.access_token then
        [{ userId := userId, accessToken := tokens.access_token,
           refreshToken := none, updatedAt := some now }]
      else [])
    ∧ ((onTokensWrites userId now tokens).filter (fun u => u.refreshToken.isSome) =
      if strTruthy tokens.refresh_token then
        [{ userId := userId, accessToken := none,
           refreshToken := tokens.refresh_token, updatedAt := some now }]
      else [])
    ∧ (∀ u ∈ onTokensWrites userId now tokens,
        u.userId = userId ∧ u.updatedAt = some now ∧
        (u.accessToken.isSome ↔ u.refreshToken.isNone)) := by
  rcases tokens with ⟨a, r⟩
  rcases a with _ | a <;> rcases r with _ | r <;>
    simp only [onTokensWrites, strTruthy] <;>
    split_ifs <;> simp_all [List.filter]

/-- Witness for C8 at a rotation event reporting both tokens. -/
theorem onTokensWrites_one_write_per_rotated_field_witness :
    (onTokensWrites "u" 7 { access_token := some "a2", refresh_token := some "r2" }).filter
        (fun u => u.accessToken.isSome) =
      [{ userId := "u", accessToken := some "a2", refreshToken := none, updatedAt := some 7 }] := by
  have h := onTokensWrites_one_write_per_rotated_field "u" 7
    { access_token := some "a2", refresh_token := some "r2" }
  rw [h.1]
  decide

/-- Claim C10: for a user with resolvable credentials, `getEvents` with
an explicitly provided empty list of calendar identifiers returns the
empty sequence with an empty remote-call trace: the calendar enumerator
is never invoked and no remote event query is issued. -/
theorem getEvents_empty_explicit_selection (prov : Provider)
    (dbAccounts : List Account) (userId now : String)
    (timeMin timeMax : Option String) (fuel : Nat) (h : ClientHandle)
    (hclient : getCalendarClient dbAccounts userId = .ok h) :
    getEvents prov dbAccounts userId now timeMin timeMax (.many []) fuel =
      ([], .ok []) := by
  simp [getEvents, getEventsTry, hclient, resolveCalendarIds,
    CalendarIdArg.isTruthy, CalendarIdArg.toList, fetchAllCals]

/-- Witness for C10 on the demo provider and account. -/
theorem getEvents_empty_explicit_selection_witness :
    getEvents demoProvider demoDb "u" "now" none none (.many []) 5 =
      ([], .ok []) :=
  getEvents_empty_explicit_selection demoProvider demoDb "u" "now" none none 5
    { accessToken := "tok", refreshToken := some "r" } (by decide)

/-- Every output of the `getEvents` classifier is one of the six
classified message shapes. -/
theorem isClassifiedMsg_classify (e : JsError) :
    IsClassifiedMsg (classifyGetEventsError e) := by
  unfold classifyGetEventsError IsClassifiedMsg
  split_ifs
  · exact Or.inl rfl
  · exact Or.inr (Or.inl rfl)
  · exact Or.inr (Or.inr (Or.inl rfl))
  · refine Or.inr (Or.inr (Or.inr (Or.inr (Or.inl ?_))))
    show accessDeniedLead.data <+: (accessDeniedLead ++ accessDeniedDefaultTail).data
    rw [String.data_append]
    exact ⟨_, rfl⟩
  · refine Or.inr (Or.inr (Or.inr (Or.inr (Or.inl ?_))))
    show accessDeniedLead.data <+: (accessDeniedLead ++ _).data
    rw [String.data_append]
    exact ⟨_, rfl⟩
  · exact Or.inr (Or.inr (Or.inr (Or.inl rfl)))
  · refine Or.inr (Or.inr (Or.inr (Or.inr (Or.inr ?_))))
    show upstreamLead.data <+: (upstreamLead ++ _).data
    rw [String.data_append]
    exact ⟨_, rfl⟩

/-- Claim C3: the classifier used by `getEvents` maps status 401 to
`AuthExpired`; status 403 with an API-not-enabled message to
`ApiNotEnabled`; status 403 with an insufficient/scope message (and no
API-not-enabled marker) to `InsufficientPermission`; any other status 403
to the generic `AccessDenied` message echoing the provider message;
status 429 to `RateLimited`; and any other failure to the generic
`UpstreamFailure` message echoing the provider message.  The first
conjunct ties the classifier to `getEvents`: every failure of the `try`
body surfaces as exactly the classified message. -/
theorem classifier_mapping :
    (∀ prov dbAccounts userId now timeMin timeMax calendarId fuel tr e,
        getEventsTry prov dbAccounts userId now timeMin timeMax calendarId fuel
          = (tr, .error e) →
        getEvents prov dbAccounts userId now timeMin timeMax calendarId fuel
          = (tr, .error { message := classifyGetEventsError e }))
    ∧ (∀ e : JsError, e.code = none → e.status = some 401 →
        classifyGetEventsError e = authExpiredMsg)
    ∧ (∀ e : JsError, e.code = none → e.status = some 403 →
        (containsSubstr (providerMessage e) "Calendar API has not been used" = true ∨
          containsSubstr (providerMessage e) "has not been enabled" = true) →
        classifyGetEventsError e = apiNotEnabledMsg)
    ∧ (∀ e : JsError, e.code = none → e.status = some 403 →
        containsSubstr (providerMessage e) "Calendar API has not been used" = false →
        containsSubstr (providerMessage e) "has not been enabled" = false →
        (containsSubstr (providerMessage e) "insufficient" = true ∨
          containsSubstr (providerMessage e) "scope" = true) →
        classifyGetEventsError e = insufficientPermissionMsg)
    ∧ (∀ e : JsError, e.code = none → e.status = some 403 →
        containsSubstr (providerMessage e) "Calendar API has not been used" = false →
        containsSubstr (providerMessage e) "has not been enabled" = false →
        containsSubstr (providerMessage e) "insufficient" = false →
        containsSubstr (providerMessage e) "scope" = false →
        providerMessage e ≠ "" →
        classifyGetEventsError e = accessDeniedLead ++ providerMessage e)
    ∧ (∀ e : JsError, e.code = none → e.status = some 429 →
        classifyGetEventsError e = rateLimitedMsg)
    ∧ (∀ e : JsError, e.code = none →
        (∀ c, e.status = some c → c ≠ 401 ∧ c ≠ 403 ∧ c ≠ 429) →
        classifyGetEventsError e = upstreamLead ++ e.message) := by
  refine ⟨?_, ?_, ?_, ?_, ?_, ?_, ?_⟩
  · intro prov dbAccounts userId now timeMin timeMax calendarId fuel tr e h
    simp [getEvents, h]
  · intro e h1 h2
    simp [classifyGetEventsError, h1, h2]
  · intro e h1 h2 h3
    rcases h3 with h3 | h3 <;> simp [classifyGetEventsError, h1, h2, h3]
  · intro e h1 h2 h3 h4 h5
    rcases h5 with h5 | h5 <;>
      simp [classifyGetEventsError, h1, h2, h3, h4, h5]
  · intro e h1 h2 h3 h4 h5 h6 h7
    simp [classifyGetEventsError, h1, h2, h3, h4, h5, h6, h7]
  · intro e h1 h2
    simp [classifyGetEventsError, h1, h2]
  · intro e h1 h2
    rcases hst : e.status with _ | c
    · simp [classifyGetEventsError, h1, hst]
    · obtain ⟨n1, n2, n3⟩ := h2 c hst
      simp [classifyGetEventsError, h1, hst, n1, n2, n3]

/-- Witness for C3: a bare 401 failure is classified `AuthExpired`. -/
theorem classifier_mapping_witness :
    classifyGetEventsError { message := "x", status := some 401 } = authExpiredMsg :=
  classifier_mapping.2.1 { message := "x", status := some 401 } rfl rfl

/-- Claim C1 (amended): only `getEvents` passes remote failures through
the Error Classifier — every error it surfaces is one of the six
classified kinds.  `listCalendars` instead wraps any failure in the
generic `Failed to fetch calendar list: <message>` message without
classification, and `createEvent`, `updateEvent` and `deleteEvent` have
no handler at all: they surface the raw provider error unchanged. -/
theorem error_surfacing_per_operation :
    (∀ prov dbAccounts userId now timeMin timeMax calendarId fuel tr e,
        getEvents prov dbAccounts userId now timeMin timeMax calendarId fuel
          = (tr, .error e) →
        IsClassifiedMsg e.message)
    ∧ (∀ prov dbAccounts userId tr e,
        listCalendars prov dbAccounts userId = (tr, .error e) →
        ∃ m, e.message = listWrapLead ++ m)
    ∧ (∀ prov dbAccounts userId event e h,
        getCalendarClient dbAccounts userId = .ok h →
        prov.eventsInsert "primary" event = .error e →
        createEvent prov dbAccounts userId event = .error e)
    ∧ (∀ prov dbAccounts userId eventId event e h,
        getCalendarClient dbAccounts userId = .ok h →
        prov.eventsUpdate "primary" eventId event = .error e →
        updateEvent prov dbAccounts userId eventId event = .error e)
    ∧ (∀ prov dbAccounts userId eventId e h,
        getCalendarClient dbAccounts userId = .ok h →
        prov.eventsDelete "primary" eventId = .error e →
        deleteEvent prov dbAccounts userId eventId = .error e) := by
  refine ⟨?_, ?_, ?_, ?_, ?_⟩
  · intro prov dbAccounts userId now timeMin timeMax calendarId fuel tr e h
    rcases htry : getEventsTry prov dbAccounts userId now timeMin timeMax
      calendarId fuel with ⟨tr0, res⟩
    cases res with
    | error e0 =>
      rw [getEvents, htry] at h
      obtain ⟨-, he⟩ := Prod.mk.injEq .. ▸ h
      cases Except.error.injEq .. ▸ he
      exact isClassifiedMsg_classify e0
    | ok items =>
      rw [getEvents, htry] at h
      obtain ⟨-, he⟩ := Prod.mk.injEq .. ▸ h
      cases he
  · intro prov dbAccounts userId tr e h
    cases hc : getCalendarClient dbAccounts userId with
    | error e0 =>
      rw [listCalendars] at h
      simp only [hc] at h
      obtain ⟨-, he⟩ := Prod.mk.injEq .. ▸ h
      cases Except.error.injEq .. ▸ he
      exact ⟨e0.message, rfl⟩
    | ok hnd =>
      cases hp : prov.calendarListList with
      | error e0 =>
        rw [listCalendars] at h
        simp only [hc, hp] at h
        obtain ⟨-, he⟩ := Prod.mk.injEq .. ▸ h
        cases Except.error.injEq .. ▸ he
        exact ⟨e0.message, rfl⟩
      | ok resp =>
        rw [listCalendars] at h
        simp only [hc, hp] at h
        obtain ⟨-, he⟩ := Prod.mk.injEq .. ▸ h
        cases he
  · intro prov dbAccounts userId event e h hc hfail
    simp [createEvent, hc, hfail]
  · intro prov dbAccounts userId eventId event e h hc hfail
    simp [updateEvent, hc, hfail]
  · intro prov dbAccounts userId eventId e h hc hfail
    simp [deleteEvent, hc, hfail]

/-- Counterexample to C1 as stated: on a provider whose `events.insert`
and `calendarList.list` fail with HTTP status 401, `createEvent` surfaces
the raw error whose message is none of the six classified kinds (in
particular not `AuthExpired`), and `listCalendars` surfaces the generic
wrapper message rather than the `AuthExpired` classification. -/
theorem error_surfacing_counterexample :
    createEvent errProvider demoDb "u" demoDraft = .error rawQuotaErr
    ∧ ¬ IsClassifiedMsg rawQuotaErr.message
    ∧ (listCalendars errProvider demoDb "u").2 =
        .error { message := "Failed to fetch calendar list: quota exceeded" }
    ∧ "Failed to fetch calendar list: quota exceeded" ≠ authExpiredMsg := by
  refine ⟨by decide, ?_, by decide, by decide⟩
  intro h
  rcases h with h | h | h | h | h | h <;> revert h <;> decide

/-- Witness for C1 (amended): a 403 scope-shortfall failure of an event
fetch surfaces from `getEvents` as a classified message. -/
theorem error_surfacing_per_operation_witness :
    IsClassifiedMsg (JsError.message { message := insufficientPermissionMsg }) :=
  error_surfacing_per_operation.1 errProvider demoDb "u" "now" none none
    (.many ["B"]) 3
    [RemoteCall.eventsList
      { calendarId := "B", timeMin := "now", timeMax := none,
        maxResults := 250, singleEvents := true, orderBy := "startTime",
        pageToken := none }]
    { message := insufficientPermissionMsg } (by decide)

/-- Every item returned by the pagination loop of one calendar is tagged
with the identifier of that calendar. -/
theorem fetchCalPages_tags (ev : EventsQuery → Except JsError EventsPage)
    (base : EventsQuery) :
    ∀ fuel tok tr items, fetchCalPages ev base fuel tok = (tr, .ok items) →
      ∀ x ∈ items, x.calendarId = some base.calendarId := by
  intro fuel
  induction fuel with
  | zero =>
    intro tok tr items h
    simp [fetchCalPages] at h
  | succ n ih =>
    intro tok tr items h
    simp only [fetchCalPages] at h
    cases hev : ev { base with pageToken := tok } with
    | error e => simp only [hev] at h; simp at h
    | ok page =>
      simp only [hev] at h
      cases hnp : page.nextPageToken with
      | none =>
        simp only [hnp, Prod.mk.injEq, Except.ok.injEq] at h
        obtain ⟨-, rfl⟩ := h
        intro x hx
        simp only [List.mem_map] at hx
        obtain ⟨y, -, rfl⟩ := hx
        rfl
      | some t =>
        simp only [hnp] at h
        by_cases ht : t = ""
        · rw [if_pos ht] at h
          simp only [Prod.mk.injEq, Except.ok.injEq] at h
          obtain ⟨-, rfl⟩ := h
          intro x hx
          simp only [List.mem_map] at hx
          obtain ⟨y, -, rfl⟩ := hx
          rfl
        · rw [if_neg ht] at h
          rcases hrec : fetchCalPages ev base n (some t) with ⟨tr2, res2⟩
          rw [hrec] at h
          cases res2 with
          | error e => simp at h
          | ok more =>
            simp only [Prod.mk.injEq, Except.ok.injEq] at h
            obtain ⟨-, rfl⟩ := h
            intro x hx
            rcases List.mem_append.mp hx with hx | hx
            · simp only [List.mem_map] at hx
              obtain ⟨y, -, rfl⟩ := hx
              rfl
            · exact ih (some t) tr2 more hrec x hx

/-- Every item of a successful aggregation loop comes from one of the
selected calendars. -/
theorem fetchAllCals_ok_sources (ev : EventsQuery → Except JsError EventsPage)
    (now : String) (timeMin timeMax : Option String) (fuel : Nat) :
    ∀ ids items,
      (fetchAllCals ev now timeMin timeMax fuel ids).2 = .ok items →
      ∀ x ∈ items, ∃ c ∈ ids, x.calendarId = some c := by
  intro ids
  induction ids with
  | nil =>
    intro items h
    simp only [fetchAllCals, Except.ok.injEq] at h
    subst h
    intro x hx
    cases hx
  | cons c rest ih =>
    intro items h
    simp only [fetchAllCals] at h
    rcases h1 : fetchCalPages ev (mkEventsQuery c now timeMin timeMax) fuel none
      with ⟨tr1, res1⟩
    rw [h1] at h
    cases res1 with
    | error e => simp at h
    | ok this1 =>
      rcases h2 : fetchAllCals ev now timeMin timeMax fuel rest with ⟨tr2, res2⟩
      rw [h2] at h
      cases res2 with
      | error e => simp at h
      | ok more =>
        simp only [Except.ok.injEq] at h
        subst h
        intro x hx
        rcases List.mem_append.mp hx with hx | hx
        · have := fetchCalPages_tags ev (mkEventsQuery c now timeMin timeMax)
            fuel none tr1 this1 h1 x hx
          exact ⟨c, by simp, by simpa [mkEventsQuery] using this⟩
        · obtain ⟨d, hd, hxd⟩ := ih more (by rw [h2]) x hx
          exact ⟨d, by simp [hd], hxd⟩

/-- When the fetch of every selected calendar succeeds, the aggregation loop
returns the concatenation of the per-calendar lists in selection
order. -/
theorem fetchAllCals_concat (ev : EventsQuery → Except JsError EventsPage)
    (now : String) (timeMin timeMax : Option String) (fuel : Nat)
    (f : String → List Event) :
    ∀ ids,
      (∀ c ∈ ids,
        (fetchCalPages ev (mkEventsQuery c now timeMin timeMax) fuel none).2 =
          .ok (f c)) →
      (fetchAllCals ev now timeMin timeMax fuel ids).2 =
        .ok ((ids.map f).flatten) := by
  intro ids
  induction ids with
  | nil => intro _; simp [fetchAllCals]
  | cons c rest ih =>
    intro h
    have hc := h c (by simp)
    have hrest := ih (fun a ha => h a (by simp [ha]))
    simp only [fetchAllCals, hc, hrest, List.map_cons, List.flatten_cons]

/-- If the fetch of some selected calendar fails (all earlier ones having
succeeded), the aggregation loop fails with that error. -/
theorem fetchAllCals_abort (ev : EventsQuery → Except JsError EventsPage)
    (now : String) (timeMin timeMax : Option String) (fuel : Nat)
    (c : String) (post : List String) (e : JsError) :
    ∀ pre,
      (∀ a ∈ pre, ∃ l,
        (fetchCalPages ev (mkEventsQuery a now timeMin timeMax) fuel none).2 =
          .ok l) →
      (fetchCalPages ev (mkEventsQuery c now timeMin timeMax) fuel none).2 =
        .error e →
      (fetchAllCals ev now timeMin timeMax fuel (pre ++ c :: post)).2 =
        .error e := by
  intro pre
  induction pre with
  | nil =>
    intro _ hfail
    simp only [List.nil_append, fetchAllCals, hfail]
  | cons a pre ih =>
    intro hpre hfail
    obtain ⟨l, hl⟩ := hpre a (by simp)
    have htail := ih (fun b hb => hpre b (by simp [hb])) hfail
    simp only [List.cons_append, fetchAllCals, hl, List.append_eq, htail]

/-- The surfaced component of `getEvents` in terms of the `try` body. -/
theorem getEvents_snd (prov : Provider) (dbAccounts : List Account)
    (userId now : String) (timeMin timeMax : Option String)
    (calendarId : CalendarIdArg) (fuel : Nat) :
    (getEvents prov dbAccounts userId now timeMin timeMax calendarId fuel).2 =
      match (getEventsTry prov dbAccounts userId now timeMin timeMax
          calendarId fuel).2 with
      | .error e => .error { message := classifyGetEventsError e }
      | .ok items => .ok items := by
  rcases h : getEventsTry prov dbAccounts userId now timeMin timeMax
    calendarId fuel with ⟨tr, res⟩
  cases res <;> simp [getEvents, h]

/-- With resolvable credentials and an explicit selection, the `try` body
surfaces exactly what the aggregation loop surfaces. -/
theorem getEventsTry_snd_many (prov : Provider) (dbAccounts : List Account)
    (userId now : String) (timeMin timeMax : Option String) (fuel : Nat)
    (ids : List String) (h : ClientHandle)
    (hclient : getCalendarClient dbAccounts userId = .ok h) :
    (getEventsTry prov dbAccounts userId now timeMin timeMax
        (.many ids) fuel).2 =
      (fetchAllCals prov.eventsList now timeMin timeMax fuel ids).2 := by
  simp [getEventsTry, hclient, resolveCalendarIds, CalendarIdArg.isTruthy,
    CalendarIdArg.toList]

/-- With resolvable credentials and no explicit selection, the `try` body
surfaces what the aggregation loop surfaces over the enumerated
calendar identifiers. -/
theorem getEventsTry_snd_undef (prov : Provider) (dbAccounts : List Account)
    (userId now : String) (timeMin timeMax : Option String) (fuel : Nat)
    (cals : List Cal) (h : ClientHandle)
    (hclient : getCalendarClient dbAccounts userId = .ok h)
    (hlist : prov.calendarListList = .ok { items := some cals }) :
    (getEventsTry prov dbAccounts userId now timeMin timeMax .undef fuel).2 =
      (fetchAllCals prov.eventsList now timeMin timeMax fuel
        (cals.map Cal.id)).2 := by
  simp [getEventsTry, hclient, resolveCalendarIds, CalendarIdArg.isTruthy,
    listCalendars, hlist]

/-- Claim C4: if the fetch for any single calendar of the selection
fails, `getEvents` fails as a whole — the surfaced result is the
classified error and carries no events, in particular none of the events
already fetched from the earlier calendars of the selection order. -/
theorem getEvents_all_or_nothing (prov : Provider) (dbAccounts : List Account)
    (userId now : String) (timeMin timeMax : Option String) (fuel : Nat)
    (pre post : List String) (c : String) (e : JsError) (h : ClientHandle)
    (hclient : getCalendarClient dbAccounts userId = .ok h)
    (hpre : ∀ a ∈ pre, ∃ l,
      (fetchCalPages prov.eventsList (mkEventsQuery a now timeMin timeMax)
        fuel none).2 = .ok l)
    (hfail : (fetchCalPages prov.eventsList (mkEventsQuery c now timeMin timeMax)
        fuel none).2 = .error e) :
    (getEvents prov dbAccounts userId now timeMin timeMax
        (.many (pre ++ c :: post)) fuel).2 =
      .error { message := classifyGetEventsError e } := by
  have habort := fetchAllCals_abort prov.eventsList now timeMin timeMax fuel
    c post e pre hpre hfail
  rw [getEvents_snd,
    getEventsTry_snd_many prov dbAccounts userId now timeMin timeMax fuel
      (pre ++ c :: post) h hclient,
    habort]

/-- Witness for C4: on `errProvider`, calendar `A` succeeds and calendar
`B` fails with 403; the whole aggregation surfaces only the classified
error. -/
theorem getEvents_all_or_nothing_witness :
    (getEvents errProvider demoDb "u" "now" none none
        (.many (["A"] ++ "B" :: [])) 3).2 =
      .error { message := insufficientPermissionMsg } := by
  have h := getEvents_all_or_nothing errProvider demoDb "u" "now" none none 3
    ["A"] [] "B" { message := "insufficient authentication scopes", status := some 403 }
    { accessToken := "tok", refreshToken := some "r" } (by decide)
    (by intro a ha
        refine ⟨[{ id := "A1", calendarId := some "A" }], ?_⟩
        have : a = "A" := by simpa using ha
        subst this
        decide)
    (by decide)
  rw [h]
  decide

/-- Claim C5: a successful `getEvents` aggregation is the concatenation
of the per-calendar result lists in calendar-selection order — the
caller-specified order when `calendarId` is given, enumerator order
otherwise — with no global re-sort or interleaving across calendars. -/
theorem getEvents_merge_order :
    (∀ (prov : Provider) dbAccounts userId now timeMin timeMax fuel ids
        (f : String → List Event) (h : ClientHandle),
        getCalendarClient dbAccounts userId = .ok h →
        (∀ c ∈ ids,
          (fetchCalPages prov.eventsList (mkEventsQuery c now timeMin timeMax)
            fuel none).2 = .ok (f c)) →
        (getEvents prov dbAccounts userId now timeMin timeMax
            (.many ids) fuel).2 = .ok ((ids.map f).flatten))
    ∧ (∀ (prov : Provider) dbAccounts userId now timeMin timeMax fuel cals
        (f : String → List Event) (h : ClientHandle),
        getCalendarClient dbAccounts userId = .ok h →
        prov.calendarListList = .ok { items := some cals } →
        (∀ c ∈ cals.map Cal.id,
          (fetchCalPages prov.eventsList (mkEventsQuery c now timeMin timeMax)
            fuel none).2 = .ok (f c)) →
        (getEvents prov dbAccounts userId now timeMin timeMax
            .undef fuel).2 = .ok (((cals.map Cal.id).map f).flatten)) := by
  constructor
  · intro prov dbAccounts userId now timeMin timeMax fuel ids f h hclient hfetch
    rw [getEvents_snd,
      getEventsTry_snd_many prov dbAccounts userId now timeMin timeMax fuel
        ids h hclient,
      fetchAllCals_concat prov.eventsList now timeMin timeMax fuel f ids hfetch]
  · intro prov dbAccounts userId now timeMin timeMax fuel cals f h hclient
      hlist hfetch
    rw [getEvents_snd,
      getEventsTry_snd_undef prov dbAccounts userId now timeMin timeMax fuel
        cals h hclient hlist,
      fetchAllCals_concat prov.eventsList now timeMin timeMax fuel f
        (cals.map Cal.id) hfetch]

/-- Witness for C5: two calendars with events `[A1,A2,A3]` and `[B1,B2]`
yield exactly `[A1,A2,A3,B1,B2]`, never interleaved or re-sorted. -/
theorem getEvents_merge_order_witness :
    (getEvents demoProvider demoDb "u" "now" none none
        (.many ["A", "B"]) 3).2 = .ok demoItems := by
  have h := getEvents_merge_order.1 demoProvider demoDb "u" "now" none none 3
    ["A", "B"] demoPerCal { accessToken := "tok", refreshToken := some "r" }
    (by decide) (by decide)
  rw [h]
  decide

/-- Claim C9: every event of a successful aggregation carries exactly one
calendar-source identifier (`calendarId` is `some c` for a single `c`),
and `c` is a member of the queried calendar-identifier set. -/
theorem getEvents_source_attribution (prov : Provider)
    (dbAccounts : List Account) (userId now : String)
    (timeMin timeMax : Option String) (calendarId : CalendarIdArg)
    (fuel : Nat) (ids : List String) (items : List Event)
    (hsel : (resolveCalendarIds prov dbAccounts userId calendarId).2 = .ok ids)
    (hok : (getEvents prov dbAccounts userId now timeMin timeMax
        calendarId fuel).2 = .ok items) :
    ∀ x ∈ items, ∃ c ∈ ids, x.calendarId = some c := by
  rw [getEvents_snd] at hok
  rcases htry : (getEventsTry prov dbAccounts userId now timeMin timeMax
      calendarId fuel).2 with e0 | items0
  · rw [htry] at hok
    cases hok
  · rw [htry] at hok
    simp only [Except.ok.injEq] at hok
    subst hok
    rw [getEventsTry] at htry
    cases hc : getCalendarClient dbAccounts userId with
    | error e => simp only [hc] at htry; cases htry
    | ok hnd =>
      simp only [hc] at htry
      rcases hres : resolveCalendarIds prov dbAccounts userId calendarId
        with ⟨trSel, resSel⟩
      rw [hres] at htry
      rw [hres] at hsel
      cases resSel with
      | error e => cases hsel
      | ok ids0 =>
        simp only [Except.ok.injEq] at hsel
        subst hsel
        simp only at htry
        exact fetchAllCals_ok_sources prov.eventsList now timeMin timeMax fuel
          ids0 items0 htry

/-- Witness for C9: the event `A3` of the demo aggregation carries the
queried source identifier `A`. -/
theorem getEvents_source_attribution_witness :
    Event.calendarId { id := "A3", summary := "", calendarId := some "A" } =
      some "A" := by
  obtain ⟨c, hc, hx⟩ := getEvents_source_attribution demoProvider demoDb "u"
    "now" none none (.many ["A", "B"]) 3 ["A", "B"] demoItems (by decide)
    (by decide) { id := "A3", summary := "", calendarId := some "A" } (by decide)
  have hca : c = "A" := by simpa using hx.symm
  subst hca
  exact hx

/-- A served page chain is never empty. -/
theorem ServesChain.ne_nil {ev : EventsQuery → Except JsError EventsPage}
    {base : EventsQuery} {tok : Option String} {pages : List EventsPage}
    (h : ServesChain ev base tok pages) : pages ≠ [] := by
  cases h <;> simp

/-- A chain of `N` pages is requested under exactly `N` tokens. -/
theorem chainToks_length :
    ∀ (tok : Option String) (pages : List EventsPage),
      (chainToks tok pages).length = pages.length := by
  intro tok pages
  induction pages generalizing tok with
  | nil => rfl
  | cons p ps ih => simp [chainToks, ih]

/-- The request tokens are the starting token followed by each non-final
continuation token carried by each non-final page. -/
theorem chainToks_eq :
    ∀ (tok : Option String) (pages : List EventsPage), pages ≠ [] →
      chainToks tok pages =
        tok :: pages.dropLast.map EventsPage.nextPageToken := by
  intro tok pages
  induction pages generalizing tok with
  | nil => intro h; cases h rfl
  | cons p ps ih =>
    intro _
    cases ps with
    | nil => simp [chainToks]
    | cons q qs =>
      rw [chainToks, ih p.nextPageToken (by simp)]
      rfl

/-- The pagination loop on a served chain issues exactly the requests of
the chain and returns the concatenation of the items of all pages,
tagged, in page order. -/
theorem fetchCalPages_of_serves (ev : EventsQuery → Except JsError EventsPage)
    (base : EventsQuery) (pages : List EventsPage) (tok : Option String)
    (h : ServesChain ev base tok pages) :
    ∀ fuel, pages.length ≤ fuel →
      fetchCalPages ev base fuel tok =
        ((chainToks tok pages).map
            (fun t => RemoteCall.eventsList { base with pageToken := t }),
          .ok ((pages.map (fun p => (p.items.getD []).map
            (fun it => { it with calendarId := some base.calendarId }))).flatten)) := by
  induction h with
  | last tok p hev hnp =>
    intro fuel hfuel
    cases fuel with
    | zero => simp at hfuel
    | succ n =>
      simp [fetchCalPages, hev, hnp, chainToks]
  | cons tok p t ps hev hnp hne htail ih =>
    intro fuel hfuel
    cases fuel with
    | zero => simp at hfuel
    | succ n =>
      have hlen : ps.length ≤ n := by simpa using hfuel
      have hrec := ih n hlen
      simp only [fetchCalPages, hev, hnp, if_neg hne, hrec, chainToks,
        List.map_cons, List.flatten_cons]

/-- Claim C6: for a calendar whose event query is served as a chain of
`N` pages (page size 250, only the final page without continuation
token), `getEvents` issues exactly `N` page requests for that calendar —
the first with no token, each later one with the continuation token of
the previous page — and returns the items of all pages concatenated in
page order, nothing dropped or duplicated. -/
theorem getEvents_pagination_drains_chain (prov : Provider)
    (dbAccounts : List Account) (userId now : String)
    (timeMin timeMax : Option String) (fuel : Nat) (c : String)
    (pages : List EventsPage) (h : ClientHandle)
    (hc : c ≠ "")
    (hclient : getCalendarClient dbAccounts userId = .ok h)
    (hserves : ServesChain prov.eventsList (mkEventsQuery c now timeMin timeMax)
      none pages)
    (hfuel : pages.length ≤ fuel) :
    getEvents prov dbAccounts userId now timeMin timeMax (.single c) fuel =
      ((chainToks none pages).map (fun t =>
          RemoteCall.eventsList
            { mkEventsQuery c now timeMin timeMax with pageToken := t }),
        .ok ((pages.map (fun p => (p.items.getD []).map
          (fun it => { it with calendarId := some c }))).flatten))
    ∧ (chainToks none pages).length = pages.length
    ∧ chainToks none pages = none :: pages.dropLast.map EventsPage.nextPageToken
    ∧ (mkEventsQuery c now timeMin timeMax).maxResults = 250 := by
  have hmain := fetchCalPages_of_serves prov.eventsList
    (mkEventsQuery c now timeMin timeMax) pages none hserves fuel hfuel
  have hproj : (mkEventsQuery c now timeMin timeMax).calendarId = c := rfl
  rw [hproj] at hmain
  have hTruthy : (CalendarIdArg.single c).isTruthy = true := by
    simp [CalendarIdArg.isTruthy, hc]
  refine ⟨?_, chainToks_length none pages,
    chainToks_eq none pages hserves.ne_nil, rfl⟩
  have h1 : fetchAllCals prov.eventsList now timeMin timeMax fuel [c] =
      ((chainToks none pages).map (fun t =>
          RemoteCall.eventsList
            { mkEventsQuery c now timeMin timeMax with pageToken := t }),
        .ok ((pages.map (fun p => (p.items.getD []).map
          (fun it => { it with calendarId := some c }))).flatten)) := by
    simp only [fetchAllCals, hmain]
    simp
    intro a _
    exact hproj.symm
  simp only [getEvents, getEventsTry, hclient, resolveCalendarIds, hTruthy,
    CalendarIdArg.toList, if_true]
  rw [h1]
  simp

/-- Witness for C6: calendar `A` of the demo provider is served as two
pages, and `getEvents` issues exactly two page requests for it. -/
theorem getEvents_pagination_drains_chain_witness :
    (getEvents demoProvider demoDb "u" "now" none none (.single "A") 2).1.length
      = 2 := by
  have hserves : ServesChain demoProvider.eventsList
      (mkEventsQuery "A" "now" none none) none [demoPageA1, demoPageA2] :=
    ServesChain.cons none demoPageA1 "t1" [demoPageA2] (by decide) (by decide)
      (by decide)
      (ServesChain.last (some "t1") demoPageA2 (by decide) (by decide))
  have h := getEvents_pagination_drains_chain demoProvider demoDb "u" "now"
    none none 2 "A" [demoPageA1, demoPageA2]
    { accessToken := "tok", refreshToken := some "r" }
    (by decide) (by decide) hserves (by decide)
  rw [h.1]
  decide

end AgenticCal
